import Mathlib

/-!
Verification of the ALMA fine-tuning launcher scripts
(`custom_copa_ft.py`, `custom_ner.py`): a shallow embedding of the
label-alignment function, the evaluation-metric functions, the argument
parsing dispatch, the SLURM parameter derivation and the submitter's
side-effect ordering, with theorems about their behaviour.
-/

namespace ALMA

/-! ### Label alignment (`custom_ner.py`, `align_labels_with_tokens`) -/

/-- `if label % 2 == 1: label += 1` — convert a B-XXX tag to the paired
I-XXX tag; even (I- or O) tags pass through unchanged. -/
def convertBtoI (label : Int) : Int :=
  if label % 2 = 1 then label + 1 else label

/-- The loop body of `align_labels_with_tokens`: `cur` is the Python
variable `current_word` (initially `None`), updated to `word_id`
whenever the word id changes. -/
def alignGo (labels : List Int) : Option Nat → List (Option Nat) → List Int
  | _, [] => []
  | cur, word_id :: rest =>
    if word_id ≠ cur then
      (match word_id with
       | none => -100
       | some w => labels.getD w 0) :: alignGo labels word_id rest
    else if word_id = none then
      (-100) :: alignGo labels cur rest
    else
      (match word_id with
       | none => -100
       | some w => convertBtoI (labels.getD w 0)) :: alignGo labels cur rest

/-- `align_labels_with_tokens(labels, word_ids)` from `custom_ner.py`. -/
def align_labels_with_tokens (labels : List Int) (word_ids : List (Option Nat)) : List Int :=
  alignGo labels none word_ids

/-- The value emitted for one position, as a function of the previous
position's word id (`cur`) and the current one (`word_id`). -/
def alignStepVal (labels : List Int) (cur word_id : Option Nat) : Int :=
  match word_id with
  | none => -100
  | some w => if cur = some w then convertBtoI (labels.getD w 0) else labels.getD w 0

theorem alignGo_cons (labels : List Int) (cur word_id : Option Nat)
    (rest : List (Option Nat)) :
    alignGo labels cur (word_id :: rest) =
      alignStepVal labels cur word_id :: alignGo labels word_id rest := by
  by_cases hne : word_id = cur
  · subst hne
    cases word_id with
    | none => simp [alignGo, alignStepVal]
    | some w => simp [alignGo, alignStepVal]
  · cases word_id with
    | none =>
      simp [alignGo, hne, alignStepVal]
    | some w =>
      simp [alignGo, hne, alignStepVal]
      rw [if_neg (fun h => hne h.symm)]

theorem alignGo_length (labels : List Int) (cur : Option Nat)
    (word_ids : List (Option Nat)) :
    (alignGo labels cur word_ids).length = word_ids.length := by
  induction word_ids generalizing cur with
  | nil => rfl
  | cons w rest ih => rw [alignGo_cons]; simp [ih]

theorem alignGo_getD (labels : List Int) (word_ids : List (Option Nat)) :
    ∀ (cur : Option Nat) (i : Nat), i < word_ids.length →
      (alignGo labels cur word_ids).getD i 0 =
        alignStepVal labels (if i = 0 then cur else word_ids.getD (i - 1) none)
          (word_ids.getD i none) := by
  induction word_ids with
  | nil => intro cur i h; simp at h
  | cons w rest ih =>
    intro cur i h
    rw [alignGo_cons]
    cases i with
    | zero => simp
    | succ j =>
      simp only [List.getD_cons_succ, List.length_cons] at *
      rw [ih w j (by omega)]
      cases j with
      | zero => simp
      | succ k => simp

/-- C2: `align_labels_with_tokens` maps each position of the word-id
sequence as follows: a position whose word id is `none` receives `-100`;
the first subword position of a word (word id differs from the previous
position's) receives the word's original tag; every further subword
position of the same word receives the tag with a begin (odd) tag
converted to the paired inside tag (begin + 1) and an even tag passed
through unchanged.  In particular word ids `[0, 0, 1, none]` with labels
`[1, 9]` yield `[1, 2, 9, -100]`. -/
theorem align_labels_with_tokens_spec (labels : List Int)
    (word_ids : List (Option Nat)) :
    (align_labels_with_tokens labels word_ids).length = word_ids.length ∧
    (∀ i, i < word_ids.length →
      (align_labels_with_tokens labels word_ids).getD i 0 =
        match word_ids.getD i none with
        | none => -100
        | some w =>
          if i ≠ 0 ∧ word_ids.getD (i - 1) none = some w then
            convertBtoI (labels.getD w 0)
          else labels.getD w 0) ∧
    align_labels_with_tokens [1, 9] [some 0, some 0, some 1, none] =
      [1, 2, 9, -100] := by
  refine ⟨alignGo_length labels none word_ids, ?_, by decide⟩
  intro i hi
  rw [align_labels_with_tokens, alignGo_getD labels word_ids none i hi]
  cases hw : word_ids.getD i none with
  | none => cases i <;> simp [alignStepVal]
  | some w =>
    cases i with
    | zero => simp [alignStepVal]
    | succ j =>
      by_cases hp : word_ids.getD j none = some w <;>
        simp [alignStepVal, hp, Nat.add_sub_cancel]

/-- C2 witness: the positional characterization evaluated at the concrete
example from the spec. -/
theorem align_labels_with_tokens_spec_witness :
    (align_labels_with_tokens [1, 9] [some 0, some 0, some 1, none]).getD 1 0 =
      convertBtoI ([1, 9].getD 0 0) :=
  (align_labels_with_tokens_spec [1, 9] [some 0, some 0, some 1, none]).2.1
    1 (by decide)
/-! ### Training arguments and checkpoint resumption -/

/-- The fields of the external `TrainingArguments` object that the resume
logic touches; `resume_from_checkpoint` is unset (`none`) when the object
is constructed. -/
structure TrainingArgumentsModel where
  output_dir : Option String
  overwrite_output_dir : Bool
  resume_from_checkpoint : Option String := none

/-- The `TrainingArguments(...)` construction in `custom_copa_ft.py`
(`overwrite_output_dir=False`; no resume field is passed). -/
def copaTrainingArgs (output_dir : Option String) : TrainingArgumentsModel :=
  { output_dir := output_dir, overwrite_output_dir := false }

/-- `custom_copa_ft.py` lines 120–125: `get_last_checkpoint(output_dir)`
is modelled by its result `lastCheckpoint` (`some` the checkpoint path
when a checkpoint directory exists under `output_dir`, `none` otherwise);
when it is not `None`, `training_args.resume_from_checkpoint` is
assigned, otherwise the arguments are left alone. -/
def copaResumeStep (lastCheckpoint : Option String)
    (args : TrainingArgumentsModel) : TrainingArgumentsModel :=
  match lastCheckpoint with
  | some c => { args with resume_from_checkpoint := some c }
  | none => args

/-- The training arguments of the multiple-choice entrypoint at the
moment `trainer.train()` is called. -/
def copaArgsAtTrain (output_dir lastCheckpoint : Option String) :
    TrainingArgumentsModel :=
  copaResumeStep lastCheckpoint (copaTrainingArgs output_dir)

/-- The `TrainingArguments(...)` construction in `custom_ner.py`
(`overwrite_output_dir=True`). -/
def nerTrainingArgs (output_dir : Option String) : TrainingArgumentsModel :=
  { output_dir := output_dir, overwrite_output_dir := true }

/-- The training arguments of the token-classification entrypoint at the
moment `trainer.train()` is called: `custom_ner.py` performs no
checkpoint lookup and contains no assignment to
`resume_from_checkpoint`, so the constructed arguments reach the trainer
unchanged whatever checkpoints exist under `output_dir`
(`lastCheckpoint` again stands for the would-be lookup result). -/
def nerArgsAtTrain (output_dir _lastCheckpoint : Option String) :
    TrainingArgumentsModel :=
  nerTrainingArgs output_dir

/-- C1 counterexample: in the token-classification entrypoint, even when
a checkpoint directory exists under `output_dir`, the training
arguments' `resume_from_checkpoint` field is not set to its path: it
stays unset. -/
theorem ner_resume_counterexample :
    (nerArgsAtTrain (some "experiment_folder/convergence_ner_adapter/001")
        (some "experiment_folder/convergence_ner_adapter/001/checkpoint-500")
      ).resume_from_checkpoint = none ∧
    (none : Option String) ≠
      some "experiment_folder/convergence_ner_adapter/001/checkpoint-500" := by
  exact ⟨rfl, by simp⟩

/-- C1 (amended): in the multiple-choice entrypoint,
`resume_from_checkpoint` is set to the last checkpoint's path when one
exists under `output_dir` and stays unset when none exists; the
token-classification entrypoint never sets the field, whether or not a
checkpoint exists. -/
theorem resume_from_checkpoint_behavior (output_dir : Option String)
    (ckpt : String) (lastCheckpoint : Option String) :
    (copaArgsAtTrain output_dir (some ckpt)).resume_from_checkpoint = some ckpt ∧
    (copaArgsAtTrain output_dir none).resume_from_checkpoint = none ∧
    (nerArgsAtTrain output_dir lastCheckpoint).resume_from_checkpoint = none :=
  ⟨rfl, rfl, rfl⟩

/-! ### SLURM job parameters (the two `__main__` blocks) -/

structure SlurmAdditionalParameters where
  clusters : String
  account : String
  nodes : Nat
  cpus_per_gpu : Nat
  gpus_per_node : Nat
  mail_type : String
  mail_user : String

structure SlurmParameters where
  slurm_partition : String
  slurm_time : String
  slurm_job_name : String
  slurm_additional_parameters : SlurmAdditionalParameters

/-- Python `str.endswith`, on the character sequence of the string. -/
def strEndsWith (s suf : String) : Bool :=
  suf.data.isSuffixOf s.data

/-- Python `str.startswith`, on the character sequence of the string. -/
def strStartsWith (s pre : String) : Bool :=
  pre.data.isPrefixOf s.data

/-- `f"gpu_p100{debug * '_debug'}"`. -/
def partitionOf (debug : Bool) : String :=
  "gpu_p100" ++ (if debug then "_debug" else "")

/-- The `parameters` dictionary built in both `__main__` blocks; the two
scripts differ only in the job name and the non-debug time budget
(`"02:30:00"` for the COPA script, `"05:30:00"` for the NER script). -/
def slurmParameters (debug : Bool) (job_name nonDebugTime account : String) :
    SlurmParameters :=
  let partition := partitionOf debug
  { slurm_partition := partition
    slurm_time := if strEndsWith partition "debug" then "01:00:00" else nonDebugTime
    slurm_job_name := job_name
    slurm_additional_parameters :=
      { clusters :=
          if strStartsWith partition "gpu_p100" || strStartsWith partition "gpu_v100"
          then "genius" else "wice"
        account := account
        nodes := 1
        cpus_per_gpu := 16
        gpus_per_node := 1
        mail_type := "BEGIN,END,FAIL"
        mail_user :=
          if strEndsWith partition "debug" then ""
          else "stef.accou@student.kuleuven.be" } }

/-- `job_name = debug * "debug_" + "convergence_finetune_copa"`. -/
def copaJobName (debug : Bool) : String :=
  (if debug then "debug_" else "") ++ "convergence_finetune_copa"

/-- `job_name = debug * "debug_" + "convergence_ner_adapter"`. -/
def nerJobName (debug : Bool) : String :=
  (if debug then "debug_" else "") ++ "convergence_ner_adapter"

def copaSlurmParameters (debug : Bool) (account : String) : SlurmParameters :=
  slurmParameters debug (copaJobName debug) "02:30:00" account

def nerSlurmParameters (debug : Bool) (account : String) : SlurmParameters :=
  slurmParameters debug (nerJobName debug) "05:30:00" account

/-- Split a character sequence on a separator character. -/
def splitOnChar (sep : Char) : List Char → List (List Char)
  | [] => [[]]
  | c :: cs =>
    let r := splitOnChar sep cs
    if c = sep then [] :: r
    else
      match r with
      | [] => [[c]]
      | g :: gs => (c :: g) :: gs

/-- Decimal digit characters to the number they denote. -/
def charsToNat (cs : List Char) : Nat :=
  cs.foldl (fun a c => a * 10 + (c.toNat - 48)) 0

/-- An `"HH:MM:SS"` SLURM time string in seconds, to compare budgets. -/
def hmsToSeconds (s : String) : Nat :=
  (splitOnChar ':' s.data).foldl (fun a p => a * 60 + charsToNat p) 0

/-- C3: for every debug value and both submitter scripts, debug selects
the `_debug`-suffixed partition, an empty mail recipient, and a time
budget strictly shorter than the non-debug one; non-debug selects the
unsuffixed partition and a non-empty mail recipient. -/
theorem slurm_debug_derivation (account : String) (debug : Bool) :
    (debug = true →
      strEndsWith (copaSlurmParameters debug account).slurm_partition "_debug" = true ∧
      strEndsWith (nerSlurmParameters debug account).slurm_partition "_debug" = true ∧
      (copaSlurmParameters debug account).slurm_additional_parameters.mail_user = "" ∧
      (nerSlurmParameters debug account).slurm_additional_parameters.mail_user = "" ∧
      hmsToSeconds (copaSlurmParameters true account).slurm_time <
        hmsToSeconds (copaSlurmParameters false account).slurm_time ∧
      hmsToSeconds (nerSlurmParameters true account).slurm_time <
        hmsToSeconds (nerSlurmParameters false account).slurm_time) ∧
    (debug = false →
      strEndsWith (copaSlurmParameters debug account).slurm_partition "_debug" = false ∧
      strEndsWith (nerSlurmParameters debug account).slurm_partition "_debug" = false ∧
      (copaSlurmParameters debug account).slurm_additional_parameters.mail_user ≠ "" ∧
      (nerSlurmParameters debug account).slurm_additional_parameters.mail_user ≠ "") := by
  cases debug <;>
    simp [copaSlurmParameters, nerSlurmParameters, slurmParameters,
      partitionOf, hmsToSeconds] <;> decide

/-- C3 witness: the debug clause evaluated for the COPA script with a
concrete account string. -/
theorem slurm_debug_derivation_witness :
    strEndsWith (copaSlurmParameters true "acct").slurm_partition "_debug" = true ∧
    strEndsWith (nerSlurmParameters true "acct").slurm_partition "_debug" = true ∧
    (copaSlurmParameters true "acct").slurm_additional_parameters.mail_user = "" ∧
    (nerSlurmParameters true "acct").slurm_additional_parameters.mail_user = "" ∧
    hmsToSeconds (copaSlurmParameters true "acct").slurm_time <
      hmsToSeconds (copaSlurmParameters false "acct").slurm_time ∧
    hmsToSeconds (nerSlurmParameters true "acct").slurm_time <
      hmsToSeconds (nerSlurmParameters false "acct").slurm_time :=
  (slurm_debug_derivation "acct" true).1 rfl
/-! ### Argument parsing dispatch (`main` in both scripts) -/

/-- The dataclass `DataTrainingArguments`: a single field `output_dir`
defaulting to `None`. -/
structure DataTrainingArguments where
  output_dir : Option String := none

/-- The option names the argument parser built from
`DataTrainingArguments` recognizes: exactly the dataclass fields. -/
def recognizedOptions : List String := ["output_dir"]

/-- The value bound to `submit_arguments` in `main`: the submitter passes
either a list of argument tokens or (when `sys.argv` has no extra
arguments) the bare Python string `"default text"`. -/
inductive JobInput where
  | argList (args : List String)
  | rawString (s : String)
deriving DecidableEq

/-- Python `len` on `submit_arguments`: list length or string length. -/
def JobInput.pyLen : JobInput → Nat
  | .argList l => l.length
  | .rawString s => s.data.length

/-- Python `submit_arguments[0]`: first list element, or the one-character
string of the first character. -/
def JobInput.first : JobInput → String
  | .argList l => l.headD ""
  | .rawString s => String.mk (s.data.take 1)

/-- Python iteration over `submit_arguments`, as the parser performs it in
`parse_args_into_dataclasses`: the list's elements, or the string's
characters as one-character strings. -/
def JobInput.pyTokens : JobInput → List String
  | .argList l => l
  | .rawString s => s.data.map (fun c => String.mk [c])

/-- Where the configuration is parsed from. -/
inductive ArgsSource where
  | jsonFile (path : String)
  | commandLine (tokens : List String)
deriving DecidableEq

/-- The dispatch at the top of `main`:
`if len(submit_arguments) == 1 and submit_arguments[0].endswith(".json")`
parse the JSON file, else parse the tokens on the command line. -/
def mainDispatch (submit_arguments : JobInput) : ArgsSource :=
  if submit_arguments.pyLen = 1 ∧ strEndsWith submit_arguments.first ".json" = true
  then ArgsSource.jsonFile submit_arguments.first
  else ArgsSource.commandLine submit_arguments.pyTokens

/-- `job_input = sys.argv[1:] if len(sys.argv) > 1 else "default text"`. -/
def jobInputOf (argv : List String) : JobInput :=
  if argv.length > 1 then JobInput.argList (argv.drop 1)
  else JobInput.rawString "default text"

/-- C7: the entrypoints' parsing recognizes the single option
`output_dir`, and dispatches on the shape of the argument list: a list of
exactly one element ending in `.json` is parsed as a JSON file, any other
argument list is parsed from the command-line tokens. -/
theorem parse_dispatch_spec (args : List String) :
    recognizedOptions = ["output_dir"] ∧
    (args.length = 1 ∧ strEndsWith (args.headD "") ".json" = true →
      mainDispatch (JobInput.argList args) = ArgsSource.jsonFile (args.headD "")) ∧
    (¬(args.length = 1 ∧ strEndsWith (args.headD "") ".json" = true) →
      mainDispatch (JobInput.argList args) = ArgsSource.commandLine args) := by
  refine ⟨rfl, fun h => ?_, fun h => ?_⟩
  · simp only [mainDispatch, JobInput.pyLen, JobInput.first]
    rw [if_pos h]
  · simp only [mainDispatch, JobInput.pyLen, JobInput.first]
    rw [if_neg h]
    rfl

/-- C7 witness: both dispatch branches at concrete argument lists. -/
theorem parse_dispatch_spec_witness :
    mainDispatch (JobInput.argList ["cfg.json"]) =
        ArgsSource.jsonFile "cfg.json" ∧
    mainDispatch (JobInput.argList ["--output_dir", "out"]) =
        ArgsSource.commandLine ["--output_dir", "out"] :=
  ⟨by
    have h := (parse_dispatch_spec ["cfg.json"]).2.1 ⟨rfl, by decide⟩
    simpa using h,
   by
    have h := (parse_dispatch_spec ["--output_dir", "out"]).2.2 (by decide)
    simpa using h⟩

/-- C10: when the submitter runs with no extra command-line arguments,
the submitted callable receives the 12-character string
`"default text"` rather than a token list; its length 12 fails the
single-`.json`-argument test, so the command-line branch parses the
string's individual characters as tokens. -/
theorem default_text_dispatch (argv : List String) (h : argv.length ≤ 1) :
    jobInputOf argv = JobInput.rawString "default text" ∧
    (JobInput.rawString "default text").pyLen = 12 ∧
    mainDispatch (jobInputOf argv) =
      ArgsSource.commandLine
        ["d", "e", "f", "a", "u", "l", "t", " ", "t", "e", "x", "t"] := by
  have hj : jobInputOf argv = JobInput.rawString "default text" := by
    unfold jobInputOf
    rw [if_neg (by omega)]
  refine ⟨hj, by decide, ?_⟩
  rw [hj]
  decide

/-- C10 witness: the submitter invoked with only the script name. -/
theorem default_text_dispatch_witness :
    jobInputOf ["custom_copa_ft.py"] = JobInput.rawString "default text" ∧
    (JobInput.rawString "default text").pyLen = 12 ∧
    mainDispatch (jobInputOf ["custom_copa_ft.py"]) =
      ArgsSource.commandLine
        ["d", "e", "f", "a", "u", "l", "t", " ", "t", "e", "x", "t"] :=
  default_text_dispatch ["custom_copa_ft.py"] (by decide)
/-! ### The run counter and experiment directories -/

/-- Decimal digits of `n`, most significant first, zero-padded on the
left to width 3. -/
def pad3Digits (n : Nat) : List Nat :=
  List.replicate (3 - (Nat.digits 10 n).length) 0 ++ (Nat.digits 10 n).reverse

/-- Python `f"{n:03d}"`. -/
def pad3 (n : Nat) : String :=
  String.mk ((pad3Digits n).map Nat.digitChar)

theorem ofDigits_replicate_zero (k : Nat) :
    Nat.ofDigits 10 (List.replicate k 0) = 0 := by
  induction k with
  | zero => rfl
  | succ m ih => simp [List.replicate_succ, Nat.ofDigits_cons, ih]

theorem ofDigits_pad3Digits (n : Nat) :
    Nat.ofDigits 10 (pad3Digits n).reverse = n := by
  unfold pad3Digits
  rw [List.reverse_append, List.reverse_reverse, List.reverse_replicate,
    Nat.ofDigits_append, Nat.ofDigits_digits, ofDigits_replicate_zero]
  ring

theorem pad3Digits_lt_ten (n : Nat) : ∀ d ∈ pad3Digits n, d < 10 := by
  intro d hd
  unfold pad3Digits at hd
  rcases List.mem_append.mp hd with h | h
  · have := List.eq_of_mem_replicate h
    omega
  · exact Nat.digits_lt_base (by norm_num) (List.mem_reverse.mp h)

theorem digitChar_toNat_of_lt_ten : ∀ d, d < 10 → (Nat.digitChar d).toNat - 48 = d := by
  decide

theorem map_digitChar_inv (ds : List Nat) (h : ∀ d ∈ ds, d < 10) :
    (ds.map Nat.digitChar).map (fun c => c.toNat - 48) = ds := by
  induction ds with
  | nil => rfl
  | cons a t ih =>
    simp only [List.map_cons, List.cons.injEq]
    exact ⟨digitChar_toNat_of_lt_ten a (h a (by simp)),
      ih (fun d hd => h d (by simp [hd]))⟩

theorem pad3_injective {m n : Nat} (h : pad3 m = pad3 n) : m = n := by
  have hdata : (pad3Digits m).map Nat.digitChar = (pad3Digits n).map Nat.digitChar := by
    have := congrArg String.data h
    simpa [pad3] using this
  have hds : pad3Digits m = pad3Digits n := by
    have h1 := map_digitChar_inv (pad3Digits m) (pad3Digits_lt_ten m)
    have h2 := map_digitChar_inv (pad3Digits n) (pad3Digits_lt_ten n)
    rw [← h1, ← h2, hdata]
  have := congrArg (fun l => Nat.ofDigits 10 l.reverse) hds
  simpa [ofDigits_pad3Digits] using this

/-- `experiments_dir / job_name / f"{run_count:03d}"`. -/
def experimentDirName (experiments_dir job_name : String) (run_count : Nat) :
    String :=
  experiments_dir ++ "/" ++ job_name ++ "/" ++ pad3 run_count

theorem experimentDirName_ne (experiments_dir job_name : String)
    {m n : Nat} (h : m ≠ n) :
    experimentDirName experiments_dir job_name m ≠
      experimentDirName experiments_dir job_name n := by
  intro he
  apply h
  apply pad3_injective
  have hd := congrArg String.data he
  simp only [experimentDirName, String.data_append, List.append_assoc] at hd
  have := List.append_cancel_left hd
  have := List.append_cancel_left this
  have := List.append_cancel_left this
  have := List.append_cancel_left this
  exact congrArg String.mk this

/-! ### The job submitter (`__main__` blocks) -/

/-- The mutable state the submitter touches: the shared submission log
(a run counter per job name, most recent entry first), the directories
created so far, the process environment, and the jobs handed to the
cluster backend. -/
structure SubmitterWorld where
  log : List (String × Nat)
  dirs : List String
  env : List (String × String)
  submitted : List JobInput

/-- Modelled from the spec: `update_submission_log` (defined in
`cluster_submission_utils`, which is not among the repository's source
files) increments the run counter persisted for `job_name` in the shared
submission log and returns the new count together with the updated
log. -/
def update_submission_log (log : List (String × Nat)) (job_name : String) :
    Nat × List (String × Nat) :=
  let count := (log.lookup job_name).getD 0 + 1
  (count, (job_name, count) :: log)

/-- Outcome of a `__main__` block: the final world after a successful
submission, or the `KeyError` escaping from
`os.environ["ACCOUNT_INFO"]`, with the world as the exception leaves
it. -/
inductive SubmitOutcome where
  | ok (w : SubmitterWorld)
  | keyError (key : String) (w : SubmitterWorld)

def SubmitOutcome.world : SubmitOutcome → SubmitterWorld
  | .ok w => w
  | .keyError _ w => w

/-- The `__main__` block shared by both scripts, parameterized by the
debug flag, job name and non-debug time budget: update the submission
log (`find_master`, also from `cluster_submission_utils`, is modelled by
the `master_dir` path it returns), create the versioned experiment
directory, build the SLURM parameters — reading `ACCOUNT_INFO` from the
environment, where a missing key raises `KeyError` — and only then hand
the job input to the executor's submit call. -/
def submitterMain (debug : Bool) (job_name nonDebugTime master_dir : String)
    (argv : List String) (w : SubmitterWorld) : SubmitOutcome :=
  let experiments_root := master_dir ++ "/" ++ "experiment_folder"
  let r := update_submission_log w.log job_name
  let experiments_dir := experimentDirName experiments_root job_name r.1
  let w1 : SubmitterWorld :=
    { w with log := r.2, dirs := experiments_dir :: w.dirs }
  match w1.env.lookup "ACCOUNT_INFO" with
  | none => SubmitOutcome.keyError "ACCOUNT_INFO" w1
  | some account =>
    let _params := slurmParameters debug job_name nonDebugTime account
    SubmitOutcome.ok { w1 with submitted := jobInputOf argv :: w1.submitted }

/-- C4: if `ACCOUNT_INFO` is absent from the environment, the submitter
fails with a `KeyError` before the executor's submit call is reached, so
no job is handed to the cluster backend. -/
theorem missing_account_no_submit (debug : Bool)
    (job_name nonDebugTime master_dir : String) (argv : List String)
    (w : SubmitterWorld) (h : w.env.lookup "ACCOUNT_INFO" = none) :
    (∃ w', submitterMain debug job_name nonDebugTime master_dir argv w =
      SubmitOutcome.keyError "ACCOUNT_INFO" w') ∧
    (submitterMain debug job_name nonDebugTime master_dir argv w).world.submitted
      = w.submitted := by
  unfold submitterMain
  simp [h, SubmitOutcome.world]

/-- C5: the failure on a missing `ACCOUNT_INFO` is not atomic: the run
counter has already been incremented in the shared log and the versioned
experiment directory has already been created when the `KeyError` is
raised, while no job has been submitted. -/
theorem missing_account_partial_effects (debug : Bool)
    (job_name nonDebugTime master_dir : String) (argv : List String)
    (w : SubmitterWorld) (h : w.env.lookup "ACCOUNT_INFO" = none) :
    (submitterMain debug job_name nonDebugTime master_dir argv w).world.log.lookup
        job_name = some ((w.log.lookup job_name).getD 0 + 1) ∧
    experimentDirName (master_dir ++ "/" ++ "experiment_folder") job_name
        ((w.log.lookup job_name).getD 0 + 1) ∈
      (submitterMain debug job_name nonDebugTime master_dir argv w).world.dirs ∧
    (submitterMain debug job_name nonDebugTime master_dir argv w).world.submitted
      = w.submitted := by
  unfold submitterMain
  simp [h, SubmitOutcome.world, update_submission_log]

/-- C4 witness: a submission attempt with an empty environment. -/
theorem missing_account_no_submit_witness :
    (∃ w', submitterMain false "convergence_ner_adapter" "05:30:00"
        "Master_thesis" [] ⟨[], [], [], []⟩ =
      SubmitOutcome.keyError "ACCOUNT_INFO" w') ∧
    (submitterMain false "convergence_ner_adapter" "05:30:00"
        "Master_thesis" [] ⟨[], [], [], []⟩).world.submitted = [] :=
  missing_account_no_submit false "convergence_ner_adapter" "05:30:00"
    "Master_thesis" [] ⟨[], [], [], []⟩ rfl

/-- C5 witness: the partial effects of the failed submission attempt with
an empty environment. -/
theorem missing_account_partial_effects_witness :
    (submitterMain true "debug_convergence_finetune_copa" "02:30:00"
        "Master_thesis" [] ⟨[], [], [], []⟩).world.log.lookup
      "debug_convergence_finetune_copa" = some 1 ∧
    experimentDirName ("Master_thesis" ++ "/" ++ "experiment_folder")
        "debug_convergence_finetune_copa" 1 ∈
      (submitterMain true "debug_convergence_finetune_copa" "02:30:00"
          "Master_thesis" [] ⟨[], [], [], []⟩).world.dirs ∧
    (submitterMain true "debug_convergence_finetune_copa" "02:30:00"
        "Master_thesis" [] ⟨[], [], [], []⟩).world.submitted = [] :=
  missing_account_partial_effects true "debug_convergence_finetune_copa"
    "02:30:00" "Master_thesis" [] ⟨[], [], [], []⟩ rfl

/-- C6: for a fixed job name the run counter returned by the submission
log strictly increases by exactly one per submission, and experiment
directory names `<job_name>/<run_count:03d>` of distinct run counts are
distinct, so consecutive submissions never reuse a directory name. -/
theorem run_counter_increases (log : List (String × Nat))
    (job_name experiments_root : String) :
    (update_submission_log (update_submission_log log job_name).2 job_name).1 =
      (update_submission_log log job_name).1 + 1 ∧
    ∀ m n : Nat, m ≠ n →
      experimentDirName experiments_root job_name m ≠
        experimentDirName experiments_root job_name n := by
  constructor
  · simp [update_submission_log]
  · intro m n hmn
    exact experimentDirName_ne experiments_root job_name hmn

/-- C6 witness: two consecutive submissions starting from an empty log
get run counts 1 and 2 and distinct directory names. -/
theorem run_counter_increases_witness :
    (update_submission_log
        (update_submission_log [] "convergence_ner_adapter").2
        "convergence_ner_adapter").1 =
      (update_submission_log [] "convergence_ner_adapter").1 + 1 ∧
    experimentDirName "experiment_folder" "convergence_ner_adapter" 1 ≠
      experimentDirName "experiment_folder" "convergence_ner_adapter" 2 :=
  ⟨(run_counter_increases [] "convergence_ner_adapter" "experiment_folder").1,
   (run_counter_increases [] "convergence_ner_adapter" "experiment_folder").2
     1 2 (by decide)⟩
/-! ### Evaluation metrics -/

/-- `np.argmax` over one row, remaining entries: `i` is the index of the
next entry, `best` the index of the running maximum `bv`; ties keep the
earlier index. -/
def argmaxGo : List ℚ → Nat → Nat → ℚ → Nat
  | [], _, best, _ => best
  | x :: rest, i, best, bv =>
    if bv < x then argmaxGo rest (i + 1) i x else argmaxGo rest (i + 1) best bv

/-- `np.argmax` over one row: the index of the first maximal entry. -/
def argmax : List ℚ → Nat
  | [] => 0
  | x :: rest => argmaxGo rest 1 0 x

/-- `(preds == p.label_ids).mean()`: the mean of a boolean array. -/
def boolMean (bs : List Bool) : ℚ :=
  (bs.countP id : ℚ) / bs.length

/-- `compute_metrics` of `custom_copa_ft.py`:
`preds = np.argmax(p.predictions, axis=1)` and the accuracy dictionary
`{"acc": (preds == p.label_ids).mean()}`. -/
def compute_metrics_copa (predictions : List (List ℚ)) (label_ids : List Nat) :
    List (String × ℚ) :=
  [("acc", boolMean
      (List.zipWith (fun p l => p == l) (predictions.map argmax) label_ids))]

theorem zipWith_countP_eq_range_countP {α β : Type} (f : α → β → Bool)
    (d₁ : α) (d₂ : β) :
    ∀ (as : List α) (bs : List β), as.length = bs.length →
      (List.zipWith f as bs).countP id =
        (List.range as.length).countP
          (fun i => f (as.getD i d₁) (bs.getD i d₂)) := by
  intro as
  induction as with
  | nil => intro bs h; simp
  | cons a as ih =>
    intro bs h
    cases bs with
    | nil => simp at h
    | cons b bs =>
      simp only [List.length_cons] at h ⊢
      rw [List.zipWith_cons_cons, List.countP_cons, List.range_succ_eq_map,
        List.countP_cons, List.countP_map, ih bs (by omega)]
      simp [Function.comp_def]

/-- C8: the multiple-choice metric function returns accuracy as its sole
metric: a single entry whose value is the fraction of examples whose
per-choice-logits argmax equals the gold label. -/
theorem compute_metrics_copa_spec (predictions : List (List ℚ))
    (label_ids : List Nat) (h : predictions.length = label_ids.length) :
    compute_metrics_copa predictions label_ids =
      [("acc",
        (((List.range predictions.length).countP
            (fun i => argmax (predictions.getD i []) == label_ids.getD i 0) : ℚ) /
          predictions.length))] := by
  unfold compute_metrics_copa boolMean
  rw [zipWith_countP_eq_range_countP (fun p l => p == l) (argmax []) 0
    (predictions.map argmax) label_ids (by simpa using h)]
  simp only [List.length_map, List.length_zipWith, h, Nat.min_self]
  have hc : List.countP
      (fun i => (predictions.map argmax).getD i (argmax []) == label_ids.getD i 0)
      (List.range label_ids.length) =
    List.countP (fun i => argmax (predictions.getD i []) == label_ids.getD i 0)
      (List.range label_ids.length) := by
    apply List.countP_congr
    intro i hi
    have hilt : i < predictions.length := by
      rw [h]; exact List.mem_range.mp hi
    rw [List.getD_eq_getElem _ _ (by simpa using hilt),
      List.getD_eq_getElem _ _ hilt, List.getElem_map]
  rw [hc]

/-- C8 witness: two examples, one correct argmax, accuracy one half. -/
theorem compute_metrics_copa_spec_witness :
    compute_metrics_copa [[(1 : ℚ), 3], [(5 : ℚ), 2]] [1, 1] =
      [("acc", (1 : ℚ) / 2)] := by
  rw [compute_metrics_copa_spec [[(1 : ℚ), 3], [(5 : ℚ), 2]] [1, 1] rfl]
  norm_num [List.range_succ, argmax, argmaxGo]
/-- The result record of the external seqeval metric
(`metric.compute`). -/
structure SeqevalResult where
  overall_precision : ℚ
  overall_recall : ℚ
  overall_f1 : ℚ
  overall_accuracy : ℚ

/-- The list comprehension building `true_labels` in `custom_ner.py`:
gold labels equal to `-100` are dropped, the rest mapped to label
names. -/
def nerTrueLabels (label_names : List String) (labels : List (List Int)) :
    List (List String) :=
  labels.map (fun label =>
    (label.filter (fun lab => lab != -100)).map
      (fun lab => label_names.getD lab.toNat ""))

/-- The list comprehension building `true_predictions` in
`custom_ner.py`: each prediction row is zipped with its gold row and a
position is kept exactly when the gold label is not `-100`. -/
def nerTruePredictions (label_names : List String)
    (predictions : List (List Nat)) (labels : List (List Int)) :
    List (List String) :=
  List.zipWith (fun prediction label =>
      ((prediction.zip label).filter (fun pl => pl.2 != -100)).map
        (fun pl => label_names.getD pl.1 ""))
    predictions labels

/-- `compute_metrics` of `custom_ner.py`, parameterized by the external
seqeval metric `metric.compute` and the dataset's label names;
`predictions = np.argmax(logits, axis=-1)`. -/
def compute_metrics_ner
    (metricCompute : List (List String) → List (List String) → SeqevalResult)
    (label_names : List String) (logits : List (List (List ℚ)))
    (labels : List (List Int)) : List (String × ℚ) :=
  let predictions := logits.map (fun row => row.map argmax)
  let m := metricCompute
    (nerTruePredictions label_names predictions labels)
    (nerTrueLabels label_names labels)
  [("precision", m.overall_precision), ("recall", m.overall_recall),
    ("f1", m.overall_f1), ("accuracy", m.overall_accuracy)]

theorem zip_filter_snd {α β : Type} (p : β → Bool) :
    ∀ (as : List α) (bs : List β), as.length = bs.length →
      ((as.zip bs).filter (fun pl => p pl.2)).map Prod.snd = bs.filter p := by
  intro as
  induction as with
  | nil =>
    intro bs h
    cases bs with
    | nil => rfl
    | cons b bs => simp at h
  | cons a as ih =>
    intro bs h
    cases bs with
    | nil => simp at h
    | cons b bs =>
      simp only [List.length_cons] at h
      rw [List.zip_cons_cons, List.filter_cons, List.filter_cons]
      by_cases hp : p b
      · simp only [hp, if_pos]
        rw [List.map_cons, ih bs (by omega)]
      · simp only [hp]
        exact ih bs (by omega)

/-- C9: the token-classification metric function passes to the external
sequence-labeling metric reference and prediction sequences from which
exactly the positions whose gold label equals `-100` have been stripped
(both rows are the two projections of the same gold-masked pair list),
and returns precision, recall, f1 and accuracy entries computed from the
metric's result. -/
theorem compute_metrics_ner_spec
    (metricCompute : List (List String) → List (List String) → SeqevalResult)
    (label_names : List String) (logits : List (List (List ℚ)))
    (labels : List (List Int))
    (hlen : logits.length = labels.length)
    (hrow : ∀ i, i < labels.length →
      (logits.getD i []).length = (labels.getD i []).length) :
    (compute_metrics_ner metricCompute label_names logits labels =
      [("precision",
          (metricCompute
            (nerTruePredictions label_names
              (logits.map (fun row => row.map argmax)) labels)
            (nerTrueLabels label_names labels)).overall_precision),
       ("recall",
          (metricCompute
            (nerTruePredictions label_names
              (logits.map (fun row => row.map argmax)) labels)
            (nerTrueLabels label_names labels)).overall_recall),
       ("f1",
          (metricCompute
            (nerTruePredictions label_names
              (logits.map (fun row => row.map argmax)) labels)
            (nerTrueLabels label_names labels)).overall_f1),
       ("accuracy",
          (metricCompute
            (nerTruePredictions label_names
              (logits.map (fun row => row.map argmax)) labels)
            (nerTrueLabels label_names labels)).overall_accuracy)]) ∧
    (∀ i, i < labels.length →
      (nerTruePredictions label_names
          (logits.map (fun row => row.map argmax)) labels).getD i [] =
        ((((logits.getD i []).map argmax).zip (labels.getD i [])).filter
            (fun pl => pl.2 != -100)).map
          (fun pl => label_names.getD pl.1 "") ∧
      (nerTrueLabels label_names labels).getD i [] =
        ((((logits.getD i []).map argmax).zip (labels.getD i [])).filter
            (fun pl => pl.2 != -100)).map
          (fun pl => label_names.getD pl.2.toNat "")) := by
  refine ⟨rfl, ?_⟩
  intro i hi
  have hil : i < logits.length := by omega
  have hizw : i < (List.zipWith (fun prediction label =>
      ((prediction.zip label).filter (fun pl => pl.2 != -100)).map
        (fun pl => label_names.getD pl.1 ""))
      (logits.map (fun row => row.map argmax)) labels).length := by
    simp [hlen, hi]
  constructor
  · rw [nerTruePredictions, List.getD_eq_getElem _ _ hizw, List.getElem_zipWith]
    rw [List.getElem_map, List.getD_eq_getElem _ _ hil,
      List.getD_eq_getElem _ _ hi]
  · rw [nerTrueLabels,
      List.getD_eq_getElem _ _ (by simpa using hi), List.getElem_map,
      List.getD_eq_getElem _ _ hil, List.getD_eq_getElem _ _ hi]
    have hlength : ((logits[i]).map argmax).length = (labels[i]).length := by
      have := hrow i hi
      rw [List.getD_eq_getElem _ _ hil, List.getD_eq_getElem _ _ hi] at this
      simpa using this
    rw [← zip_filter_snd (fun lab => lab != -100) ((logits[i]).map argmax)
      (labels[i]) hlength, List.map_map]
    rfl

/-- C9 witness: one row with gold labels `[1, -100, 2]`: the middle
position is stripped from both sequences. -/
theorem compute_metrics_ner_spec_witness :
    (nerTruePredictions ["O", "B-PER", "I-PER"]
        ([[[(0 : ℚ), 1], [1, 0], [0, 1]]].map (fun row => row.map argmax))
        [[1, -100, 2]]).getD 0 [] = ["B-PER", "B-PER"] ∧
    (nerTrueLabels ["O", "B-PER", "I-PER"] [[1, -100, 2]]).getD 0 [] =
      ["B-PER", "I-PER"] := by
  have h := (compute_metrics_ner_spec
      (fun p r => ⟨(p.length : ℚ), (r.length : ℚ), 0, 0⟩)
      ["O", "B-PER", "I-PER"] [[[(0 : ℚ), 1], [1, 0], [0, 1]]]
      [[1, -100, 2]] rfl
      (by
        intro i hi
        have hz : i = 0 := by simp at hi; omega
        subst hz
        rfl)).2 0 (by norm_num)
  refine ⟨?_, ?_⟩
  · rw [h.1]
    norm_num [argmax, argmaxGo]
    rfl
  · rw [h.2]
    norm_num [argmax, argmaxGo]
    rfl
end ALMA
